import Mathlib

/-
Verification of the pyote operational-transformation engine
(src/pyote/engine.py, src/pyote/operations.py, src/pyote/utils.py).

The Python code is shallowly embedded: linked lists of operation nodes
become Lean lists, Python ints become Int, a Python `None` state becomes
`Option State`, and runtime faults (AttributeError on a None dereference,
NameError on an unassigned local, the OTException raised by concurrency
discovery) become an `Except PyError` result.  Loops that splice fresh
nodes into the sequence being walked (`_transform_delete_delete`,
`_swap_sequence_delete_delete`) are embedded with an explicit fuel
parameter; the fuel chosen by the wrappers is far larger than the number
of iterations those loops can perform on the inputs considered here, and
running out of fuel is reported as a distinct error value so it can never
be mistaken for a genuine result.

In-place mutation matters in two spots and is modelled explicitly:
`_merge_sequence` adds `value_size` to `node1.value.position` on the
original objects of its first argument (the merge result returned here
therefore carries, next to the merged list, the post-call contents of the
first argument's operation objects), and `integrate_remote` re-reads the
concurrent-insert node values after that merge has mutated them (modelled
by re-selecting the concurrent subsequence from the mutated values).
-/

namespace Pyote

/-- State from utils.py: the causal tag `{site_id, local_time, remote_time}`. -/
structure State where
  site_id : Int
  local_time : Int
  remote_time : Int
deriving DecidableEq, Repr

/-- InsertOperation from operations.py; `state` is None until assigned. -/
structure InsertOperation where
  position : Int
  value : String
  state : Option State
deriving DecidableEq, Repr

/-- DeleteOperation from operations.py. -/
structure DeleteOperation where
  position : Int
  length : Int
  state : Option State
deriving DecidableEq, Repr

/-- InsertOperation.get_increment: `len(self.value)`. -/
def InsertOperation.get_increment (op : InsertOperation) : Int :=
  (op.value.length : Int)

/-- DeleteOperation.get_increment: `-self.length`. -/
def DeleteOperation.get_increment (op : DeleteOperation) : Int :=
  -op.length

/-- TransactionSequence from utils.py. -/
structure TransactionSequence where
  starting_state : Option State
  inserts : List InsertOperation
  deletes : List DeleteOperation
deriving DecidableEq, Repr

/-- The mutable fields of an Engine object from engine.py. -/
structure Engine where
  site_id : Int
  last_state : Option State
  inserts : List InsertOperation
  deletes : List DeleteOperation
  time_stamp : Int
deriving DecidableEq, Repr

/-- Runtime faults of the Python code.  `attributeError` models a
dereference of None, `nameError` models reading a local variable that was
never assigned, `causalityNotMet` is the OTException raised by
`_get_concurrent`, and `outOfFuel` marks exhaustion of the explicit fuel
of the two splicing loops (never a behaviour of the Python code). -/
inductive PyError where
  | attributeError
  | nameError
  | causalityNotMet
  | outOfFuel
deriving DecidableEq, Repr

/-- Dereference an operation state, failing as Python does on None. -/
def getState : Option State → Except PyError State
  | none => .error .attributeError
  | some s => .ok s

/-- Loop body of Engine._transform_insert_insert (engine.py lines 195-240).
`evs`/`ivs` are existing_value_size and incoming_value_size.  Every
iteration consumes one element of one of the two lists, so the wrapper
fuel `incoming.length + existing.length + 1` can never run out. -/
def tiiGo : Nat → Int → Int →
    List InsertOperation → List InsertOperation →
    Except PyError (List InsertOperation)
  | 0, _, _, _, _ => .error .outOfFuel
  | _ + 1, evs, _, incoming, [] =>
    .ok (incoming.map fun op => { op with position := op.position + evs })
  | _ + 1, _, _, [], _ :: _ => .ok []
  | fuel + 1, evs, ivs, i :: is, e :: es =>
    let epos := e.position - evs
    let ipos := i.position - ivs
    if epos < ipos then
      tiiGo fuel (evs + e.get_increment) ivs (i :: is) es
    else if epos = ipos then do
      let est ← getState e.state
      let ist ← getState i.state
      if est.site_id < ist.site_id then
        tiiGo fuel (evs + e.get_increment) ivs (i :: is) es
      else do
        let rest ← tiiGo fuel evs (ivs + i.get_increment) is (e :: es)
        .ok ({ i with position := i.position + evs } :: rest)
    else do
      let rest ← tiiGo fuel evs (ivs + i.get_increment) is (e :: es)
      .ok ({ i with position := i.position + evs } :: rest)

/-- Engine._transform_insert_insert. -/
def transform_insert_insert (incoming existing : List InsertOperation) :
    Except PyError (List InsertOperation) :=
  tiiGo (incoming.length + existing.length + 1) 0 0 incoming existing

/-- Loop body of Engine._transform_delete_insert (engine.py lines 253-298);
same scan as `tiiGo` with delete operations incoming. -/
def tdiGo : Nat → Int → Int →
    List DeleteOperation → List InsertOperation →
    Except PyError (List DeleteOperation)
  | 0, _, _, _, _ => .error .outOfFuel
  | _ + 1, evs, _, incoming, [] =>
    .ok (incoming.map fun op => { op with position := op.position + evs })
  | _ + 1, _, _, [], _ :: _ => .ok []
  | fuel + 1, evs, ivs, i :: is, e :: es =>
    let epos := e.position - evs
    let ipos := i.position - ivs
    if epos < ipos then
      tdiGo fuel (evs + e.get_increment) ivs (i :: is) es
    else if epos = ipos then do
      let est ← getState e.state
      let ist ← getState i.state
      if est.site_id < ist.site_id then
        tdiGo fuel (evs + e.get_increment) ivs (i :: is) es
      else do
        let rest ← tdiGo fuel evs (ivs + i.get_increment) is (e :: es)
        .ok ({ i with position := i.position + evs } :: rest)
    else do
      let rest ← tdiGo fuel evs (ivs + i.get_increment) is (e :: es)
      .ok ({ i with position := i.position + evs } :: rest)

/-- Engine._transform_delete_insert. -/
def transform_delete_insert (incoming : List DeleteOperation)
    (existing : List InsertOperation) : Except PyError (List DeleteOperation) :=
  tdiGo (incoming.length + existing.length + 1) 0 0 incoming existing

/-- Loop body of Engine._transform_insert_delete (engine.py lines 311-362);
`eep` is existing_end_point, updated when an existing delete is consumed. -/
def tidGo : Nat → Int → Int → Int →
    List InsertOperation → List DeleteOperation →
    Except PyError (List InsertOperation)
  | 0, _, _, _, _, _ => .error .outOfFuel
  | _ + 1, evs, _, _, incoming, [] =>
    .ok (incoming.map fun op => { op with position := op.position + evs })
  | _ + 1, _, _, _, [], _ :: _ => .ok []
  | fuel + 1, evs, ivs, eep, i :: is, e :: es =>
    let epos := e.position - evs
    let ipos := i.position - ivs
    if epos < ipos then
      tidGo fuel (evs + e.get_increment) ivs (epos + e.length) (i :: is) es
    else if epos = ipos then do
      let est ← getState e.state
      let ist ← getState i.state
      if est.site_id < ist.site_id then
        tidGo fuel (evs + e.get_increment) ivs (epos + e.length) (i :: is) es
      else do
        let rest ← tidGo fuel evs (ivs + i.get_increment) eep is (e :: es)
        let p0 := if ipos < eep then eep + ivs else i.position
        .ok ({ i with position := p0 + evs } :: rest)
    else do
      let rest ← tidGo fuel evs (ivs + i.get_increment) eep is (e :: es)
      let p0 := if ipos < eep then eep + ivs else i.position
      .ok ({ i with position := p0 + evs } :: rest)

/-- Engine._transform_insert_delete. -/
def transform_insert_delete (incoming : List InsertOperation)
    (existing : List DeleteOperation) : Except PyError (List InsertOperation) :=
  tidGo (incoming.length + existing.length + 1) 0 0 0 incoming existing

/-- Drain loop of Engine._transform_delete_delete (engine.py lines 452-472).
`lip` is the value of the Python local `incoming_pos`, which the drain loop
reads but never reassigns: it still holds the adjusted position computed in
the last main-loop iteration, and reading it when the main loop never ran is
a NameError. -/
def tddDrain (evs ivs eep dca : Int) (lip : Option Int) :
    List DeleteOperation → Except PyError (List DeleteOperation)
  | [] => .ok []
  | i :: is =>
    match lip with
    | none => .error .nameError
    | some p => do
      let (p1, l1) :=
        if eep > p then (eep - ivs, max 0 (i.length - eep + p))
        else (i.position, i.length)
      let p2 := p1 - (evs - dca)
      let rest ← tddDrain evs (ivs + i.length) eep (dca + (i.length - l1)) lip is
      .ok ({ i with position := p2, length := l1 } :: rest)

/-- Main loop of Engine._transform_delete_delete (engine.py lines 375-473).
`evs`/`ivs` are existing_value_size / incoming_value_size, `eep` is
existing_end_point, `dca` is double_count_amount.  A straddling incoming
delete is clipped and a fresh remainder node (state None) is spliced in
front of the remaining incoming operations. -/
def tddGo : Nat → Int → Int → Int → Int → Option Int →
    List DeleteOperation → List DeleteOperation →
    Except PyError (List DeleteOperation)
  | 0, _, _, _, _, _, _, _ => .error .outOfFuel
  | _ + 1, evs, ivs, eep, dca, lip, incoming, [] =>
    tddDrain evs ivs eep dca lip incoming
  | _ + 1, _, _, _, _, _, [], _ :: _ => .ok []
  | fuel + 1, evs, ivs, eep, dca, _, i :: is, e :: es =>
    let epos := e.position + evs
    let ipos := i.position + ivs
    if epos < ipos then
      tddGo fuel (evs + e.length) ivs (epos + e.length) dca (some ipos) (i :: is) es
    else do
      let tie ←
        if epos = ipos then do
          let est ← getState e.state
          let ist ← getState i.state
          pure (decide (est.site_id < ist.site_id))
        else pure false
      if tie then
        tddGo fuel (evs + e.length) ivs (epos + e.length) dca (some ipos) (i :: is) es
      else
        let (p1, l1) :=
          if eep > ipos then (eep - ivs, max 0 (i.length - eep + ipos))
          else (i.position, i.length)
        let (l2, ivs2, dd, next) :=
          if ipos + i.length > epos then
            if ipos + i.length < epos + e.length then
              (epos - ipos, ivs, (0 : Int), is)
            else if ipos = epos + e.length then
              (l1, ivs, (0 : Int), is)
            else
              let newLen := i.length + ipos - epos - e.length
              let ivsNew := ivs - newLen
              let newPos := (epos + e.length) - (ivsNew + i.length)
              (l1 - (ipos + i.length - epos), ivsNew, -newLen,
                ({ position := newPos, length := newLen, state := none } :
                  DeleteOperation) :: is)
          else (l1, ivs, (0 : Int), is)
        let p2 := p1 - (evs - dca)
        let rest ←
          tddGo fuel evs (ivs2 + i.length) eep (dca + (i.length - l2 + dd))
            (some ipos) next (e :: es)
        .ok ({ i with position := p2, length := l2 } :: rest)

/-- Engine._transform_delete_delete. -/
def transform_delete_delete (incoming existing : List DeleteOperation) :
    Except PyError (List DeleteOperation) :=
  tddGo (4 * (incoming.length + existing.length) + 8) 0 0 0 0 none incoming existing

/-- Loop of Engine._merge_sequence on insert sequences (engine.py lines
489-534).  Returns the merged sequence, the post-call contents of the first
argument's operation objects (the loop does `node1.value.position +=
value_size` on the original objects before emitting a copy), and the final
`last_state` (set to `node2.value.state` each time an operation of the
second argument is consumed).  Every iteration consumes one element, so the
wrapper fuel can never run out; at fuel 0 the empty result is returned. -/
def mergeInsGo : Nat → Int → Option State →
    List InsertOperation → List InsertOperation →
    List InsertOperation × List InsertOperation × Option State
  | 0, _, ls, _, _ => ([], [], ls)
  | _ + 1, _, ls, [], [] => ([], [], ls)
  | fuel + 1, vs, _, [], n2 :: r2 =>
    let r := mergeInsGo fuel (vs + n2.get_increment) n2.state [] r2
    (n2 :: r.1, r.2.1, r.2.2)
  | fuel + 1, vs, ls, n1 :: r1, [] =>
    let n1p := { n1 with position := n1.position + vs }
    let r := mergeInsGo fuel vs ls r1 []
    (n1p :: r.1, n1p :: r.2.1, r.2.2)
  | fuel + 1, vs, ls, n1 :: r1, n2 :: r2 =>
    if n2.position - vs < n1.position then
      let r := mergeInsGo fuel (vs + n2.get_increment) n2.state (n1 :: r1) r2
      (n2 :: r.1, r.2.1, r.2.2)
    else
      let n1p := { n1 with position := n1.position + vs }
      let r := mergeInsGo fuel vs ls r1 (n2 :: r2)
      (n1p :: r.1, n1p :: r.2.1, r.2.2)

/-- Engine._merge_sequence on insert sequences. -/
def merge_sequence_inserts (ls : Option State)
    (s1 s2 : List InsertOperation) :
    List InsertOperation × List InsertOperation × Option State :=
  mergeInsGo (s1.length + s2.length + 1) 0 ls s1 s2

/-- Loop of Engine._merge_sequence on delete sequences; identical walk,
with the delete operations' negative increments. -/
def mergeDelGo : Nat → Int → Option State →
    List DeleteOperation → List DeleteOperation →
    List DeleteOperation × List DeleteOperation × Option State
  | 0, _, ls, _, _ => ([], [], ls)
  | _ + 1, _, ls, [], [] => ([], [], ls)
  | fuel + 1, vs, _, [], n2 :: r2 =>
    let r := mergeDelGo fuel (vs + n2.get_increment) n2.state [] r2
    (n2 :: r.1, r.2.1, r.2.2)
  | fuel + 1, vs, ls, n1 :: r1, [] =>
    let n1p := { n1 with position := n1.position + vs }
    let r := mergeDelGo fuel vs ls r1 []
    (n1p :: r.1, n1p :: r.2.1, r.2.2)
  | fuel + 1, vs, ls, n1 :: r1, n2 :: r2 =>
    if n2.position - vs < n1.position then
      let r := mergeDelGo fuel (vs + n2.get_increment) n2.state (n1 :: r1) r2
      (n2 :: r.1, r.2.1, r.2.2)
    else
      let n1p := { n1 with position := n1.position + vs }
      let r := mergeDelGo fuel vs ls r1 (n2 :: r2)
      (n1p :: r.1, n1p :: r.2.1, r.2.2)

/-- Engine._merge_sequence on delete sequences. -/
def merge_sequence_deletes (ls : Option State)
    (s1 s2 : List DeleteOperation) :
    List DeleteOperation × List DeleteOperation × Option State :=
  mergeDelGo (s1.length + s2.length + 1) 0 ls s1 s2

/-- Loop of Engine._swap_sequence_delete_insert (engine.py lines 548-598).
`node1` walks the outgoing inserts, `node2` the local deletes; the result is
(new inserts, new deletes).  Every iteration consumes one element, so the
wrapper fuel can never run out. -/
def sdiGo : Nat → Int → Int →
    List InsertOperation → List DeleteOperation →
    List InsertOperation × List DeleteOperation
  | 0, _, _, _, _ => ([], [])
  | _ + 1, _, _, [], [] => ([], [])
  | fuel + 1, size1, size2, [], n2 :: r2 =>
    let r := sdiGo fuel size1 (size2 - n2.get_increment) [] r2
    (r.1, { n2 with position := n2.position + size1 } :: r.2)
  | fuel + 1, size1, size2, n1 :: r1, [] =>
    let r := sdiGo fuel (size1 + n1.get_increment) size2 r1 []
    ({ n1 with position := n1.position + size2 } :: r.1, r.2)
  | fuel + 1, size1, size2, n1 :: r1, n2 :: r2 =>
    if n2.position ≤ n1.position - size1 then
      let r := sdiGo fuel size1 (size2 - n2.get_increment) (n1 :: r1) r2
      (r.1, { n2 with position := n2.position + size1 } :: r.2)
    else
      let r := sdiGo fuel (size1 + n1.get_increment) size2 r1 (n2 :: r2)
      ({ n1 with position := n1.position + size2 } :: r.1, r.2)

/-- Engine._swap_sequence_delete_insert: argument order follows the source,
`sequence2` (the deletes, executed first before the swap) then `sequence1`
(the inserts). -/
def swap_delete_insert (sequence2 : List DeleteOperation)
    (sequence1 : List InsertOperation) :
    List InsertOperation × List DeleteOperation :=
  sdiGo (sequence1.length + sequence2.length + 1) 0 0 sequence1 sequence2

/-- Loop of Engine._swap_sequence_delete_delete (engine.py lines 612-669).
An emitted `node1` delete that runs into the next `node2` delete is clipped
and the remainder is spliced back as the new head (a fresh DeleteOperation
whose state is None). -/
def sddGo : Nat → Int → Int →
    List DeleteOperation → List DeleteOperation →
    Except PyError (List DeleteOperation × List DeleteOperation)
  | 0, _, _, _, _ => .error .outOfFuel
  | _ + 1, _, _, [], [] => .ok ([], [])
  | fuel + 1, size1, size2, [], n2 :: r2 => do
    let r ← sddGo fuel size1 (size2 - n2.get_increment) [] r2
    .ok (r.1, { n2 with position := n2.position + size1 } :: r.2)
  | fuel + 1, size1, size2, n1 :: r1, [] => do
    let r ← sddGo fuel (size1 - n1.get_increment) size2 r1 []
    .ok ({ n1 with position := n1.position + size2 } :: r.1, r.2)
  | fuel + 1, size1, size2, n1 :: r1, n2 :: r2 =>
    if n2.position ≤ n1.position + size1 then do
      let r ← sddGo fuel size1 (size2 - n2.get_increment) (n1 :: r1) r2
      .ok (r.1, { n2 with position := n2.position - size1 } :: r.2)
    else
      let (emitLen, next) :=
        if n1.position + size1 + n1.length > n2.position then
          let el := n2.position - n1.position - size1
          (el, ({ position := n1.position, length := n1.length - el,
                  state := none } : DeleteOperation) :: r1)
        else (n1.length, r1)
      do
        let r ← sddGo fuel (size1 + emitLen) size2 next (n2 :: r2)
        .ok ({ n1 with length := emitLen, position := n1.position + size2 } :: r.1,
             r.2)

/-- Engine._swap_sequence_delete_delete: argument order follows the source,
`sequence2` (executed first before the swap) then `sequence1`. -/
def swap_delete_delete (sequence2 sequence1 : List DeleteOperation) :
    Except PyError (List DeleteOperation × List DeleteOperation) :=
  sddGo (4 * (sequence1.length + sequence2.length) + 8) 0 0 sequence1 sequence2

/-- Search loop of Engine._get_concurrent over the insert history
(engine.py lines 139-148): the local reference starts at -1 and is replaced
by the local_time of the first operation whose state matches `(site_id,
remote_time)` of the starting state. -/
def findRefI (s : State) : List InsertOperation → Except PyError Int
  | [] => .ok (-1)
  | op :: rest => do
    let st ← getState op.state
    if st.site_id = s.site_id ∧ st.remote_time = s.remote_time then
      .ok st.local_time
    else
      findRefI s rest

/-- Search loop of Engine._get_concurrent over the delete history
(engine.py lines 151-161). -/
def findRefD (s : State) : List DeleteOperation → Except PyError Int
  | [] => .ok (-1)
  | op :: rest => do
    let st ← getState op.state
    if st.site_id = s.site_id ∧ st.remote_time = s.remote_time then
      .ok st.local_time
    else
      findRefD s rest

/-- Collection loop of Engine._get_concurrent (engine.py lines 168-182):
append each scanned operation whose local_time exceeds the reference to the
tail of the accumulator. -/
def buildConcurrent (ref : Int) (acc : List InsertOperation) :
    List InsertOperation → Except PyError (List InsertOperation)
  | [] => .ok acc
  | op :: rest => do
    let st ← getState op.state
    if ref < st.local_time then buildConcurrent ref (acc ++ [op]) rest
    else buildConcurrent ref acc rest

/-- Engine._get_concurrent (engine.py lines 127-182).  The error
propagation of the two search loops is written out as matches. -/
def get_concurrent (e : Engine) (starting_state : Option State)
    (insert_sequence : List InsertOperation) :
    Except PyError (List InsertOperation) :=
  match starting_state with
  | none => .ok insert_sequence
  | some s =>
    match findRefI s e.inserts with
    | .error err => .error err
    | .ok r1 =>
      match if r1 = -1 then findRefD s e.deletes else .ok r1 with
      | .error err => .error err
      | .ok r =>
        if r = -1 then .error .causalityNotMet
        else buildConcurrent r [] insert_sequence

/-- The fate of a state under Engine._assign_timestamps: an existing state
keeps its identity with a new local_time, a None state becomes
`State(self.site_id, ts, ts)`. -/
def assignStamp (site ts : Int) : Option State → State
  | some s => { s with local_time := ts }
  | none => { site_id := site, local_time := ts, remote_time := ts }

/-- Engine._assign_timestamps on an insert sequence; returns the stamped
sequence and the engine's new time_stamp. -/
def assign_timestamps_inserts (site ts : Int) :
    List InsertOperation → List InsertOperation × Int
  | [] => ([], ts)
  | op :: rest =>
    let opNew := { op with state := some (assignStamp site (ts + 1) op.state) }
    let r := assign_timestamps_inserts site (ts + 1) rest
    (opNew :: r.1, r.2)

/-- Engine._assign_timestamps on a delete sequence. -/
def assign_timestamps_deletes (site ts : Int) :
    List DeleteOperation → List DeleteOperation × Int
  | [] => ([], ts)
  | op :: rest =>
    let opNew := { op with state := some (assignStamp site (ts + 1) op.state) }
    let r := assign_timestamps_deletes site (ts + 1) rest
    (opNew :: r.1, r.2)

/-- The concurrent-insert node list built at engine.py line 51 shares its
operation objects with the engine's insert history, and the merge at line 63
mutates those objects in place; this re-selects the same subsequence from
the mutated values, which is what the aliased list holds at line 69. -/
def concurrent_values_after (e : Engine) (starting_state : Option State)
    (mutated : List InsertOperation) : Except PyError (List InsertOperation) :=
  match starting_state with
  | none => .ok mutated
  | some s => do
    let r1 ← findRefI s e.inserts
    let r ← if r1 = -1 then findRefD s e.deletes else .ok r1
    if r = -1 then .error .causalityNotMet
    else buildConcurrent r [] mutated

/-- Engine.integrate_remote (engine.py lines 39-79).  The returned pair is
(the transaction returned to the caller, the engine after the call).  The
returned inserts are copied before timestamps are assigned (line 57 runs
before line 59), the returned deletes after (line 72 before line 74), as in
the source. -/
def integrate_remote (e : Engine) (remote_sequence : TransactionSequence) :
    Except PyError (TransactionSequence × Engine) := do
  let conc ← get_concurrent e remote_sequence.starting_state e.inserts
  let transformedRemoteInserts ← transform_insert_insert remote_sequence.inserts conc
  let newRemoteInserts ← transform_insert_delete transformedRemoteInserts e.deletes
  let (tri2, ts1) :=
    assign_timestamps_inserts e.site_id e.time_stamp transformedRemoteInserts
  let m1 := merge_sequence_inserts e.last_state e.inserts tri2
  let concAfter ← concurrent_values_after e remote_sequence.starting_state m1.2.1
  let transformedLocalDeletes ← transform_delete_insert e.deletes tri2
  let transformedRemoteDeletes ← transform_delete_insert remote_sequence.deletes concAfter
  let newRemoteDeletes ← transform_delete_delete transformedRemoteDeletes
    transformedLocalDeletes
  let (nrd2, ts2) := assign_timestamps_deletes e.site_id ts1 newRemoteDeletes
  let m2 := merge_sequence_deletes m1.2.2 transformedLocalDeletes nrd2
  .ok (⟨remote_sequence.starting_state, newRemoteInserts, nrd2⟩,
       { e with inserts := m1.1, deletes := m2.1,
                last_state := m2.2.2, time_stamp := ts2 })

/-- Engine.process_transaction (engine.py lines 81-110).  Timestamps are
assigned to the outgoing operations before the swaps, so a delete spliced by
the delete-delete swap is never stamped. -/
def process_transaction (e : Engine) (outgoing_sequence : TransactionSequence) :
    Except PyError (TransactionSequence × Engine) := do
  let outgoingState := e.last_state
  let (ins2, ts1) :=
    assign_timestamps_inserts e.site_id e.time_stamp outgoing_sequence.inserts
  let (dels2, ts2) := assign_timestamps_deletes e.site_id ts1 outgoing_sequence.deletes
  let (transformedInserts, transformedDeletes) := swap_delete_insert e.deletes ins2
  let swapped ← swap_delete_delete transformedDeletes dels2
  let m1 := merge_sequence_inserts e.last_state e.inserts transformedInserts
  let m2 := merge_sequence_deletes m1.2.2 transformedDeletes dels2
  .ok (⟨outgoingState, transformedInserts, swapped.1⟩,
       { e with inserts := m1.1, deletes := m2.1,
                last_state := m2.2.2, time_stamp := ts2 })

/-- Engine.__init__ (engine.py lines 12-37): `self._inserts` is set to None
and the very next statement reads `self._inserts.value.state`, which raises
AttributeError on None; the branch for a non-empty list records what the
assignment would have done. -/
def engine_init (site_id : Int) : Except PyError Engine :=
  let inserts : List InsertOperation := []
  match inserts with
  | [] => .error .attributeError
  | op :: rest =>
    .ok { site_id := site_id, last_state := none,
          inserts := { op with state := none } :: rest,
          deletes := [], time_stamp := 0 }

/-- Whether an optional state matches the `(site_id, remote_time)` of a
starting state, the equal-origin relation of the spec. -/
def matchesState (s : State) : Option State → Bool
  | some st => st.site_id == s.site_id && st.remote_time == s.remote_time
  | none => false

/-- The local_time carried by an optional state (-1 when absent, the
sentinel the search loops of `_get_concurrent` use for "not found"). -/
def localTimeOf : Option State → Int
  | some st => st.local_time
  | none => -1

/-- The site_id carried by an optional state (-1 when absent). -/
def siteOf : Option State → Int
  | some st => st.site_id
  | none => -1

/-- The effect-order relation claimed by the spec for adjacent insert
history entries: strictly increasing position, ties broken by site_id. -/
def effect_ordered_inserts : List InsertOperation → Bool
  | a :: b :: rest =>
    (decide (a.position < b.position) ||
      (decide (a.position = b.position) && decide (siteOf a.state < siteOf b.state)))
    && effect_ordered_inserts (b :: rest)
  | _ => true

/-- The effect-order relation claimed by the spec for adjacent delete
history entries. -/
def effect_ordered_deletes : List DeleteOperation → Bool
  | a :: b :: rest =>
    (decide (a.position < b.position) ||
      (decide (a.position = b.position) && decide (siteOf a.state < siteOf b.state)))
    && effect_ordered_deletes (b :: rest)
  | _ => true

/-- Adjacent delete history entries in non-decreasing position order (the
part of the effect-order claim that survives merging without a site_id
tie-break). -/
def positions_nondecreasing_deletes : List DeleteOperation → Bool
  | a :: b :: rest =>
    decide (a.position ≤ b.position) && positions_nondecreasing_deletes (b :: rest)
  | _ => true

/-- Dummy site-1 state with equal local and remote times, as the tests
build them. -/
def site1_state (n : Int) : Option State := some ⟨1, n, n⟩

/-- Dummy site-2 state with equal local and remote times. -/
def site2_state (n : Int) : Option State := some ⟨2, n, n⟩

/-- The S6 engine: site 1 pre-history of test_integrate_sequences, with
last_state S(1,0,0). -/
def s6_engine : Engine :=
  { site_id := 1, last_state := some ⟨1, 0, 0⟩, time_stamp := 8,
    inserts := [⟨0, "The quick brown fox", some ⟨1, 0, 0⟩⟩,
                ⟨4, "very ", site1_state 1⟩, ⟨14, "ly", site1_state 2⟩,
                ⟨20, "u", site1_state 3⟩],
    deletes := [⟨2, 1, site1_state 4⟩, ⟨4, 1, site1_state 5⟩,
                ⟨8, 2, site1_state 6⟩, ⟨15, 2, site1_state 7⟩,
                ⟨19, 1, site1_state 8⟩] }

/-- The S6 remote transaction from site 2 with starting state S(1,0,0). -/
def s6_remote : TransactionSequence :=
  ⟨some ⟨1, 0, 0⟩,
   [⟨3, "ee", site2_state 1⟩, ⟨11, "k", site2_state 2⟩,
    ⟨18, "wnwnwn", site2_state 3⟩, ⟨28, "xx!", site2_state 4⟩],
   [⟨1, 2, site2_state 5⟩, ⟨11, 3, site2_state 6⟩, ⟨20, 1, site2_state 7⟩]⟩

/-- S4 seq1: the site-2 delete sequence of test_transform_delete_delete. -/
def s4_seq1 : List DeleteOperation :=
  [⟨4, 9, site2_state 1⟩, ⟨15, 7, site2_state 2⟩, ⟨20, 3, site2_state 3⟩]

/-- S4 seq2: the site-1 delete sequence of test_transform_delete_delete. -/
def s4_seq2 : List DeleteOperation :=
  [⟨1, 5, site1_state 4⟩, ⟨2, 2, site1_state 5⟩, ⟨4, 4, site1_state 6⟩,
   ⟨21, 12, site1_state 7⟩]

/-- A one-element S1 input for the merge mutation scenario. -/
def c7_s1 : List InsertOperation := [⟨5, "a", site1_state 1⟩]

/-- A one-element S2 input (already transformed against `c7_s1`) whose
increment 2 is added to the S1 operation during the merge. -/
def c7_s2 : List InsertOperation := [⟨3, "bb", site2_state 2⟩]

/-- Engine for the process_transaction splice scenario: site 1 with a
single local delete D(2,1) in history. -/
def c8_engine : Engine :=
  { site_id := 1, last_state := some ⟨1, 1, 1⟩, time_stamp := 1,
    inserts := [], deletes := [⟨2, 1, some ⟨1, 1, 1⟩⟩] }

/-- Outgoing transaction whose delete D(1,2) straddles the local delete
D(2,1), forcing the delete-delete swap to splice a remainder. -/
def c8_outgoing : TransactionSequence := ⟨none, [], [⟨1, 2, none⟩]⟩

/-- Engine for the integrate_remote splice scenario: site 1 holding
"abcdefgh" with a local delete D(2,2). -/
def c10_engine : Engine :=
  { site_id := 1, last_state := some ⟨1, 1, 1⟩, time_stamp := 1,
    inserts := [⟨0, "abcdefgh", some ⟨1, 0, 0⟩⟩],
    deletes := [⟨2, 2, some ⟨1, 1, 1⟩⟩] }

/-- Remote transaction from site 2 whose delete D(1,4) straddles the local
delete D(2,2). -/
def c10_remote : TransactionSequence :=
  ⟨some ⟨1, 0, 0⟩, [], [⟨1, 4, some ⟨2, 1, 1⟩⟩]⟩

/-- A small engine used to witness the concurrency-discovery theorem. -/
def w3_engine : Engine :=
  { site_id := 1, last_state := none, time_stamp := 3,
    inserts := [⟨0, "ab", some ⟨1, 1, 1⟩⟩, ⟨5, "c", some ⟨2, 2, 2⟩⟩],
    deletes := [⟨1, 1, some ⟨1, 3, 3⟩⟩] }

/-- A scanned sequence used to witness the concurrency-discovery theorem. -/
def w3_seq : List InsertOperation :=
  [⟨7, "x", some ⟨2, 2, 2⟩⟩, ⟨9, "y", some ⟨1, 1, 1⟩⟩]

/-- Reduction of a successful Except bind, used to unfold the do blocks. -/
theorem except_ok_bind {α β : Type} (a : α) (f : α → Except PyError β) :
    (Except.ok a : Except PyError α) >>= f = f a := rfl

/-- Reduction of a failing Except bind. -/
theorem except_error_bind {α β : Type} (err : PyError) (f : α → Except PyError β) :
    (Except.error err : Except PyError α) >>= f = Except.error err := rfl

/-- The search loop over the insert history returns the local_time of the
first `(site_id, remote_time)` match, or the sentinel -1. -/
theorem findRefI_eq (s : State) (l : List InsertOperation)
    (h : ∀ op ∈ l, op.state.isSome) :
    findRefI s l =
      .ok (match l.find? (fun o => matchesState s o.state) with
           | some op => localTimeOf op.state
           | none => -1) := by
  induction l with
  | nil => rfl
  | cons a t ih =>
    obtain ⟨st, hst⟩ := Option.isSome_iff_exists.mp (h a (List.mem_cons_self a t))
    have ht : ∀ op ∈ t, op.state.isSome :=
      fun op hop => h op (List.mem_cons_of_mem a hop)
    by_cases hm : st.site_id = s.site_id ∧ st.remote_time = s.remote_time
    · rw [List.find?_cons_of_pos]
      · simp [findRefI, hst, getState, hm, localTimeOf, except_ok_bind]
      · simp [matchesState, hst, hm.1, hm.2]
    · rw [List.find?_cons_of_neg]
      · simp [findRefI, hst, getState, hm, ih ht, except_ok_bind]
      · simp only [matchesState, hst, Bool.and_eq_true, beq_iff_eq]
        exact hm

/-- The search loop over the delete history returns the local_time of the
first `(site_id, remote_time)` match, or the sentinel -1. -/
theorem findRefD_eq (s : State) (l : List DeleteOperation)
    (h : ∀ op ∈ l, op.state.isSome) :
    findRefD s l =
      .ok (match l.find? (fun o => matchesState s o.state) with
           | some op => localTimeOf op.state
           | none => -1) := by
  induction l with
  | nil => rfl
  | cons a t ih =>
    obtain ⟨st, hst⟩ := Option.isSome_iff_exists.mp (h a (List.mem_cons_self a t))
    have ht : ∀ op ∈ t, op.state.isSome :=
      fun op hop => h op (List.mem_cons_of_mem a hop)
    by_cases hm : st.site_id = s.site_id ∧ st.remote_time = s.remote_time
    · rw [List.find?_cons_of_pos]
      · simp [findRefD, hst, getState, hm, localTimeOf, except_ok_bind]
      · simp [matchesState, hst, hm.1, hm.2]
    · rw [List.find?_cons_of_neg]
      · simp [findRefD, hst, getState, hm, ih ht, except_ok_bind]
      · simp only [matchesState, hst, Bool.and_eq_true, beq_iff_eq]
        exact hm

/-- The tail-append collection loop of `_get_concurrent` is the filter of
the scanned sequence by `local_time > ref`. -/
theorem buildConcurrent_eq (r : Int) (acc : List InsertOperation)
    (l : List InsertOperation) (h : ∀ op ∈ l, op.state.isSome) :
    buildConcurrent r acc l =
      .ok (acc ++ l.filter (fun o => decide (r < localTimeOf o.state))) := by
  induction l generalizing acc with
  | nil => simp [buildConcurrent]
  | cons a t ih =>
    obtain ⟨st, hst⟩ := Option.isSome_iff_exists.mp (h a (List.mem_cons_self a t))
    have ht : ∀ op ∈ t, op.state.isSome :=
      fun op hop => h op (List.mem_cons_of_mem a hop)
    by_cases hlt : r < st.local_time
    · simp [buildConcurrent, hst, getState, hlt, ih _ ht, localTimeOf,
        List.filter_cons, except_ok_bind]
    · simp [buildConcurrent, hst, getState, hlt, ih _ ht, localTimeOf,
        List.filter_cons, except_ok_bind]

/-- C1: on the S6 engine (site 1, pre-history inserts I(0,"The quick brown
fox"), I(4,"very "), I(14,"ly"), I(20,"u") and deletes D(2,1), D(4,1),
D(8,2), D(15,2), D(19,1), last_state S(1,0,0)), integrate_remote on the
site-2 transaction with starting_state S(1,0,0), inserts I(3,"ee"),
I(11,"k"), I(18,"wnwnwn"), I(28,"xx!") and deletes D(1,2), D(11,3), D(20,1)
returns inserts I(2,"ee"), I(14,"k"), I(20,"wnwnwn"), I(29,"xx!") and
deletes D(1,1), D(1,0), D(15,2), D(24,1). -/
theorem s6_integrate_remote_result :
    (integrate_remote s6_engine s6_remote).map (fun r =>
      (r.1.inserts.map (fun op => (op.position, op.value)),
       r.1.deletes.map (fun op => (op.position, op.length)))) =
    .ok ([(2, "ee"), (14, "k"), (20, "wnwnwn"), (29, "xx!")],
         [(1, 1), (1, 0), (15, 2), (24, 1)]) := rfl

/-- C2 counterexample: after the S6 integrate_remote call the engine's
delete history is not effect ordered in the claimed sense — it contains
adjacent operations with equal positions whose site ids are 2 then 1
(the merge loop resolves position ties in favour of its first argument
without comparing site ids). -/
theorem s6_effect_order_tiebreak_violated :
    (integrate_remote s6_engine s6_remote).map
      (fun r => effect_ordered_deletes r.2.deletes) = .ok false := rfl

/-- C2 amended: after the S6 integrate_remote call the insert history does
satisfy the strict effect order and the delete history is non-decreasing in
position; only the site-id tie-break clause fails. -/
theorem s6_history_position_order :
    (integrate_remote s6_engine s6_remote).map
      (fun r => effect_ordered_inserts r.2.inserts
             && positions_nondecreasing_deletes r.2.deletes) = .ok true := rfl

/-- C3: concurrency discovery.  With a null starting state the scanned
sequence is returned whole; with a starting state matched in the insert
history (or, failing that, the delete history) the result is the
subsequence of the scanned sequence whose local_time exceeds the matched
operation's local_time; with no match the call fails with CausalityNotMet
and integrate_remote fails the same way before touching any state. -/
theorem get_concurrent_characterization (e : Engine) (s : State)
    (seq : List InsertOperation)
    (hI : ∀ op ∈ e.inserts, op.state.isSome ∧ 0 ≤ localTimeOf op.state)
    (hD : ∀ op ∈ e.deletes, op.state.isSome ∧ 0 ≤ localTimeOf op.state)
    (hS : ∀ op ∈ seq, op.state.isSome) :
    (get_concurrent e none seq = .ok seq) ∧
    (∀ op, e.inserts.find? (fun o => matchesState s o.state) = some op →
      get_concurrent e (some s) seq =
        .ok (seq.filter (fun o =>
          decide (localTimeOf op.state < localTimeOf o.state)))) ∧
    (e.inserts.find? (fun o => matchesState s o.state) = none →
     ∀ op, e.deletes.find? (fun o => matchesState s o.state) = some op →
      get_concurrent e (some s) seq =
        .ok (seq.filter (fun o =>
          decide (localTimeOf op.state < localTimeOf o.state)))) ∧
    (e.inserts.find? (fun o => matchesState s o.state) = none →
     e.deletes.find? (fun o => matchesState s o.state) = none →
      get_concurrent e (some s) seq = .error .causalityNotMet ∧
      ∀ ins dels,
        integrate_remote e ⟨some s, ins, dels⟩ = .error .causalityNotMet) := by
  have hIm : ∀ op ∈ e.inserts, op.state.isSome := fun op h => (hI op h).1
  have hDm : ∀ op ∈ e.deletes, op.state.isSome := fun op h => (hD op h).1
  refine ⟨rfl, ?_, ?_, ?_⟩
  · intro op hop
    have hfr := findRefI_eq s e.inserts hIm
    rw [hop] at hfr
    have hL : 0 ≤ localTimeOf op.state := (hI op (List.mem_of_find?_eq_some hop)).2
    have hne : ¬ localTimeOf op.state = -1 := by omega
    simp [get_concurrent, hfr, hne, buildConcurrent_eq _ _ _ hS]
  · intro hnoI op hop
    have hfr := findRefI_eq s e.inserts hIm
    rw [hnoI] at hfr
    have hfd := findRefD_eq s e.deletes hDm
    rw [hop] at hfd
    have hL : 0 ≤ localTimeOf op.state := (hD op (List.mem_of_find?_eq_some hop)).2
    have hne : ¬ localTimeOf op.state = -1 := by omega
    simp [get_concurrent, hfr, hfd, hne, buildConcurrent_eq _ _ _ hS]
  · intro hnoI hnoD
    have hfr := findRefI_eq s e.inserts hIm
    rw [hnoI] at hfr
    have hfd := findRefD_eq s e.deletes hDm
    rw [hnoD] at hfd
    have hgc : get_concurrent e (some s) e.inserts = .error .causalityNotMet := by
      simp [get_concurrent, hfr, hfd]
    constructor
    · simp [get_concurrent, hfr, hfd]
    · intro ins dels
      simp [integrate_remote, hgc, except_error_bind]

/-- C3 witness: the characterization applied to a concrete engine whose
insert history matches the starting state S(1,·,1) at local_time 1. -/
theorem get_concurrent_characterization_witness :
    (∀ op ∈ w3_engine.inserts, op.state.isSome ∧ 0 ≤ localTimeOf op.state) ∧
    (∀ op ∈ w3_engine.deletes, op.state.isSome ∧ 0 ≤ localTimeOf op.state) ∧
    (∀ op ∈ w3_seq, op.state.isSome) ∧
    get_concurrent w3_engine (some ⟨1, 99, 1⟩) w3_seq =
      .ok (w3_seq.filter (fun o =>
        decide (localTimeOf (some ⟨1, 1, 1⟩ : Option State) < localTimeOf o.state))) :=
  ⟨by decide, by decide, by decide,
   (get_concurrent_characterization w3_engine ⟨1, 99, 1⟩ w3_seq
      (by decide) (by decide) (by decide)).2.1
     ⟨0, "ab", some ⟨1, 1, 1⟩⟩ (by decide)⟩

/-- C5: the S4 transform_delete_delete scenario in both directions,
zero-length deletes D(1,0) and D(11,0) preserved in the outputs. -/
theorem s4_transform_delete_delete_result :
    ((transform_delete_delete s4_seq1 s4_seq2).map
        (fun l => l.map fun op => (op.position, op.length)) =
      .ok [(1, 1), (1, 2), (10, 7), (11, 0)]) ∧
    ((transform_delete_delete s4_seq2 s4_seq1).map
        (fun l => l.map fun op => (op.position, op.length)) =
      .ok [(1, 3), (1, 0), (1, 2), (11, 4), (11, 5)]) := ⟨rfl, rfl⟩

/-- C6: when the existing sequence is empty and the incoming sequence is
not, the drain loop of transform_delete_delete reads the loop variable
`incoming_pos` that was never assigned, so the call raises NameError
instead of returning the incoming deletes unchanged — for any fuel and any
non-empty incoming sequence, and in particular for the concrete call on
D(0,1). -/
theorem transform_delete_delete_empty_existing_name_error :
    (∀ (fuel : Nat) (d : DeleteOperation) (ds : List DeleteOperation),
      tddGo (fuel + 1) 0 0 0 0 none (d :: ds) [] = .error .nameError) ∧
    transform_delete_delete [⟨0, 1, site2_state 1⟩] [] = .error .nameError :=
  ⟨fun _ _ _ => rfl, rfl⟩

/-- C7 counterexample: after merging S1 = [I(5,"a")] with S2 = [I(3,"bb")]
the original S1 operation no longer carries its pre-call position — the
merge added value_size 2 to it in place. -/
theorem merge_sequence_mutates_s1 :
    (merge_sequence_inserts none c7_s1 c7_s2).2.1 ≠ c7_s1 := by decide

/-- The post-call S1 operation objects of the merge loop are exactly the
S1-derived entries of the merged output: the in-place adjustment makes each
original equal to its emitted copy. -/
theorem mergeInsGo_sublist : ∀ (fuel : Nat) (vs : Int) (ls : Option State)
    (s1 s2 : List InsertOperation),
    List.Sublist (mergeInsGo fuel vs ls s1 s2).2.1
      (mergeInsGo fuel vs ls s1 s2).1 := by
  intro fuel
  induction fuel with
  | zero => intro vs ls s1 s2; simp [mergeInsGo]
  | succ n ih =>
    intro vs ls s1 s2
    cases s1 with
    | nil =>
      cases s2 with
      | nil => simp [mergeInsGo]
      | cons n2 r2 => simpa [mergeInsGo] using (ih _ _ [] r2).cons n2
    | cons n1 r1 =>
      cases s2 with
      | nil =>
        simpa [mergeInsGo] using
          (ih vs ls r1 []).cons₂ { n1 with position := n1.position + vs }
      | cons n2 r2 =>
        by_cases hlt : n2.position - vs < n1.position
        · simpa [mergeInsGo, hlt] using (ih _ _ (n1 :: r1) r2).cons n2
        · simpa [mergeInsGo, hlt] using
            (ih vs ls r1 (n2 :: r2)).cons₂ { n1 with position := n1.position + vs }

/-- C7 amended: the merge does mutate the S1 operations in place — each
consumed S1 operation gets the accumulated value_size added to its
position before its copy is emitted, so the post-call S1 objects form a
subsequence of the merged output (they equal their emitted copies); at the
concrete input the original S1 operation ends up holding position 7 = 5+2.
S2 operations are never mutated (the embedding returns no modified S2
values because the loop writes none). -/
theorem merge_sequence_s1_mutation_rule :
    (∀ (ls : Option State) (s1 s2 : List InsertOperation),
      List.Sublist (merge_sequence_inserts ls s1 s2).2.1
        (merge_sequence_inserts ls s1 s2).1) ∧
    (merge_sequence_inserts none c7_s1 c7_s2).2.1 =
      [⟨7, "a", site1_state 1⟩] :=
  ⟨fun ls s1 s2 => mergeInsGo_sublist _ _ _ _ _, by decide⟩

/-- C8 counterexample: process_transaction on an outgoing delete D(1,2)
that straddles the local delete D(2,1) returns a transaction whose second
delete is the spliced remainder with a null state (timestamps were assigned
before the swap, and the splice creates a bare DeleteOperation). -/
theorem process_transaction_null_state_delete :
    (process_transaction c8_engine c8_outgoing).map
      (fun r => r.1.deletes.map (fun op => op.state)) =
    .ok [some ⟨1, 2, 2⟩, none] := rfl

/-- C8 amended: every operation returned by the S6 integrate_remote call
carries a non-null state (assign_timestamps fills the spliced null before
the return), but the transaction returned by process_transaction carries a
null state exactly on the remainder spliced by the delete-delete swap. -/
theorem returned_states_null_only_for_spliced_remainder :
    ((integrate_remote s6_engine s6_remote).map
        (fun r => r.1.inserts.all (fun op => op.state.isSome)
               && r.1.deletes.all (fun op => op.state.isSome)) = .ok true) ∧
    ((process_transaction c8_engine c8_outgoing).map
        (fun r => r.1.deletes.map (fun op => op.state.isSome)) =
      .ok [true, false]) := ⟨rfl, rfl⟩

/-- C9: Engine.__init__ dereferences the None insert list and raises
AttributeError for every site id; no engine is ever constructed, empty or
otherwise. -/
theorem engine_init_always_fails :
    ∀ site_id : Int, engine_init site_id = .error .attributeError :=
  fun _ => rfl

/-- C10: when the remote delete D(1,4) straddles the local delete D(2,2),
transform_delete_delete splices a remainder with a null state, and
integrate_remote's subsequent assign_timestamps fills that null with
State(1, 3, 3) — the integrating site's own site_id and a fresh
remote_time — both in the returned transaction and in the delete history
the engine keeps. -/
theorem spliced_remainder_attributed_to_local_site :
    (transform_delete_delete [⟨1, 4, some ⟨2, 1, 1⟩⟩] [⟨2, 2, some ⟨1, 1, 1⟩⟩] =
      .ok [⟨1, 1, some ⟨2, 1, 1⟩⟩, ⟨1, 1, none⟩]) ∧
    ((integrate_remote c10_engine c10_remote).map (fun r =>
        (r.1.deletes.map (fun op => (op.position, op.length, op.state)),
         r.2.deletes.map (fun op => op.state),
         r.2.time_stamp)) =
      .ok ([(1, 1, some ⟨2, 2, 1⟩), (1, 1, some ⟨1, 3, 3⟩)],
           [some ⟨2, 2, 1⟩, some ⟨1, 1, 1⟩, some ⟨1, 3, 3⟩], 3)) := ⟨rfl, rfl⟩

end Pyote
